import Mathlib

/-!
Verification development for the seifnode native addon (paypal/seifnode).

The C++ sources under src/ are shallowly embedded as executable Lean
definitions. Machine integers are modelled as Nat with explicit reductions
modulo 2 ^ 64 or 256 where the C code performs uint64 / uint8 arithmetic.
External cryptographic primitives (Crypto++ AES-GCM, SHA3-256, the pcg64
generator, the IsaacRandomPool entropy source and the FileCryptopp
encrypted-file collaborator) are parameters of the embedded functions: the
repository only composes them, so each theorem quantifies over an arbitrary
implementation of the primitive, constrained exactly by the hypotheses the
claim names.
-/

/-! ## aesxor.cc : byte conversion helpers -/

/-- Embedding of uInt64toBytes (aesxor.cc lines 85-97): each 64-bit word is
serialized as 8 bytes, least significant byte first, all words concatenated
in order. The byte extracted for index i is ((w &gt;&gt; (8*i)) & 0xFF),
which for a uint64 word equals w / 256 ^ i % 256. -/
def uInt64toBytes (ws : List Nat) : List Nat :=
  ws.flatMap (fun w => (List.range 8).map (fun i => w / 256 ^ i % 256))

/-- Embedding of bytesToUInt64 (aesxor.cc lines 111-124): big-endian
accumulation of every byte of the buffer into a uint64, so each step is
(returnVal << 8) + (uint8_t)b performed modulo 2 ^ 64. -/
def bytesToUInt64 (bytes : List Nat) : Nat :=
  bytes.foldl (fun acc b => (acc * 256 + b % 256) % 2 ^ 64) 0

/-! ## aesxor.cc : the AESXOR256 object -/

/-- State of an AESXOR256 instance. The pcg64_once_insecure generator held
through the _rng pointer is modelled by the infinite sequence of uint64
words it will output (field stream) together with the number of words
already consumed (field idx). -/
structure AESXOR256 where
  stream : Nat → Nat
  idx : Nat

/-- The word count computed at aesxor.cc line 162:
numRand = len % 8 == 0 ? len / 8 : len / 8 + 1. -/
def AESXOR256.numRand (len : Nat) : Nat :=
  if len % 8 = 0 then len / 8 else len / 8 + 1

/-- Embedding of AESXOR256::getRandom (aesxor.cc lines 158-175). It draws
numRand len successive uint64 words from the generator and converts them
with uInt64toBytes. The first component is the full list of bytes the C
code writes through the output pointer (8 * numRand len bytes, written
starting at the base of the caller-supplied len-byte buffer); the second
component is the advanced generator state. -/
def AESXOR256.getRandom (st : AESXOR256) (len : Nat) : List Nat × AESXOR256 :=
  let n := AESXOR256.numRand len
  (uInt64toBytes ((List.range n).map (fun i => st.stream (st.idx + i) % 2 ^ 64)),
   { st with idx := st.idx + n })

/-- Embedding of AESXOR256::xorRandomData (aesxor.cc lines 305-317):
output[i] = input[i] XOR random[i] for i < input.size(), where random is
the byte stream produced by getRandom for input.size() bytes. -/
def AESXOR256.xorRandomData (st : AESXOR256) (input : List Nat) :
    List Nat × AESXOR256 :=
  (List.zipWith Nat.xor input (st.getRandom input.length).1,
   (st.getRandom input.length).2)

/-- Embedding of the seed computation in AESXOR256::New (aesxor.cc lines
349-359): the uint64 seed is bytesToUInt64 of the whole seed buffer, and the
constructor (line 140) creates a fresh pcg64_once_insecure from that seed.
The external pcg64 algorithm is the parameter pcg, mapping a seed to the
word stream of the generator it initializes. -/
def AESXOR256.New (pcg : Nat → Nat → Nat) (seedBuf : List Nat) : AESXOR256 :=
  { stream := pcg (bytesToUInt64 seedBuf), idx := 0 }

/-- Embedding of AESXOR256::encrypt (aesxor.cc lines 405-467). The key
length is checked against AESNODE_DEFAULT_KEY_LENGTH_BYTES = 32, the
message is whitened with xorRandomData, and the whitened buffer is passed
to the external AES-GCM encryption (parameter gcmEnc, whose faults are
modelled as error values since the C++ catches CryptoPP::Exception and
rethrows it to node.js). -/
def AESXOR256.encrypt (gcmEnc : List Nat → List Nat → Except String (List Nat))
    (st : AESXOR256) (key message : List Nat) :
    Except String (List Nat × AESXOR256) :=
  if key.length ≠ 32 then
    Except.error "Incorrect Arguments. Please provide a key of size 32 bytes"
  else
    match gcmEnc key (st.xorRandomData message).1 with
    | Except.error e => Except.error e
    | Except.ok cipherData =>
      Except.ok (cipherData, (st.xorRandomData message).2)

/-- Embedding of AESXOR256::decrypt (aesxor.cc lines 491-552). The key
length is checked, the cipher is passed to the external AES-GCM
authenticated decryption (parameter gcmDec; a tag mismatch is an error
value), and only a successfully decrypted buffer is un-whitened with
xorRandomData. An error produces no plaintext at all. -/
def AESXOR256.decrypt (gcmDec : List Nat → List Nat → Except String (List Nat))
    (st : AESXOR256) (key cipher : List Nat) :
    Except String (List Nat × AESXOR256) :=
  if key.length ≠ 32 then
    Except.error "Incorrect Arguments. Please provide a key of size 32 bytes"
  else
    match gcmDec key cipher with
    | Except.error e => Except.error e
    | Except.ok temp =>
      Except.ok ((st.xorRandomData temp).1, (st.xorRandomData temp).2)

/-- Plain big-endian accumulation of a byte buffer without the uint64
wrap-around, used to analyse bytesToUInt64. -/
def beVal (l : List Nat) : Nat :=
  l.foldl (fun acc b => acc * 256 + b % 256) 0

/-! ## util.h and the protection-key digest computation -/

/-- Embedding of the digest computation repeated verbatim in
RNG::isInitialized (rng.cc lines 280-293), RNG::initialize (rng.cc lines
355-368) and ECCISAAC::New (eccisaac.cc lines 768-779): when the caller
buffer holds fewer than 32 bytes the key used is the SHA3-256 hash of the
buffer, otherwise the whole buffer is copied unchanged (digest.reserve
followed by std::copy of bufferData..bufferData+bufferLength). The external
SHA3-256 primitive is the parameter sha3. -/
def normalizeKey (sha3 : List Nat → List Nat) (buffer : List Nat) : List Nat :=
  if buffer.length < 32 then sha3 buffer else buffer

/-- Embedding of SEIFSHA3::hash (seifsha3.cc lines 124-164) for a buffer
argument: a digest vector of SHA3_256::DIGESTSIZE = 32 bytes is allocated
and the external hash (parameter sha3, via hashBuffer in util.h lines
77-85) writes its DIGESTSIZE output bytes into it; the returned node.js
buffer copies exactly digest.size() = 32 bytes. The take on the padded
list models the fixed 32-byte vector that receives the digest. -/
def SEIFSHA3.hash (sha3 : List Nat → List Nat) (input : List Nat) : List Nat :=
  (sha3 input ++ List.replicate 32 0).take 32

/-! ## rng.cc / eccisaac.cc : the bounded entropy-gathering retry loop -/

/-- Outcome of the entropy-gathering initialization in RNG::initialize
(rng.cc lines 374-398) and ECCISAAC::generateKeys (eccisaac.cc lines
664-683): success, the "Not enough entropy!" failure after all retries,
or a hardware exception rethrown to node.js with its message. -/
inductive InitOutcome where
  | ok : InitOutcome
  | entropyError : InitOutcome
  | hwError : String → InitOutcome
deriving DecidableEq, Repr

/-- Embedding of the retry loop
for (; multiplier < 6; ++multiplier) if (Initialize(multiplier)) break;
starting at multiplier m. The external IsaacRandomPool::Initialize attempt
is the parameter attempt, which either returns a Bool or throws (error).
The result is the final value of multiplier (6 after exhaustion) or the
propagated exception. MAX_ENTROPY_GEN_MULTIPLIER = 6 (rng.cc line 59); the
loop in generateKeys uses the literal 6. -/
def entropyLoopAux (attempt : Nat → Except String Bool) :
    Nat → Nat → Except String Nat
  | m, 0 => Except.ok m
  | m, r + 1 =>
    match attempt m with
    | Except.error e => Except.error e
    | Except.ok true => Except.ok m
    | Except.ok false => entropyLoopAux attempt (m + 1) r

/-- The loop of the previous definition entered at multiplier m: the
remaining iteration budget 6 - m makes the for-loop guard multiplier < 6
structural. -/
def entropyLoop (attempt : Nat → Except String Bool) (m : Nat) :
    Except String Nat :=
  entropyLoopAux attempt m (6 - m)

/-- The list of effort multipliers on which the loop actually invokes the
entropy-gathering attempt, with the same countdown as entropyLoopAux. -/
def entropyTraceAux (attempt : Nat → Except String Bool) :
    Nat → Nat → List Nat
  | _, 0 => []
  | m, r + 1 =>
    match attempt m with
    | Except.error _ => [m]
    | Except.ok true => [m]
    | Except.ok false => m :: entropyTraceAux attempt (m + 1) r

/-- The multipliers on which the loop entered at m invokes the attempt. -/
def entropyTrace (attempt : Nat → Except String Bool) (m : Nat) : List Nat :=
  entropyTraceAux attempt m (6 - m)

/-- Embedding of the whole entropy-gathering phase of RNG::initialize
(rng.cc lines 374-398): run the loop from multiplier 0; a caught exception
becomes a thrown node.js error with the same message; a final multiplier
of MAX_ENTROPY_GEN_MULTIPLIER = 6 becomes the "Not enough entropy!"
error; otherwise the call succeeds. The identical loop in
ECCISAAC::generateKeys (eccisaac.cc lines 664-683) is embedded by the same
function. -/
def RNG.initializeEntropy (attempt : Nat → Except String Bool) : InitOutcome :=
  match entropyLoop attempt 0 with
  | Except.error e => InitOutcome.hwError e
  | Except.ok m => if m = 6 then InitOutcome.entropyError else InitOutcome.ok

/-! ## eccisaac.cc : key persistence -/

/-- The status enum of eccisaac.h lines 79-85. -/
inductive STATUS where
  | success : STATUS
  | fileNotFound : STATUS
  | decryptionError : STATUS
  | entropyError : STATUS
  | rngInitError : STATUS
deriving DecidableEq, Repr

/-- Observable state of one encrypted key file on disk, as seen through the
FileCryptopp collaborator used by LoadPrivateKey/LoadPublicKey: the file is
absent (fileExists false), present but readFile fails under the given key,
or present and decrypting to the stored key bytes. -/
inductive FileState where
  | absent : FileState
  | undecryptable : FileState
  | readable : List Nat → FileState
deriving DecidableEq, Repr

/-- Embedding of ECCISAAC::LoadPrivateKey (eccisaac.cc lines 472-502):
FILE_NOT_FOUND when the file does not exist, DECRYPTION_ERROR when
readFile fails, otherwise the decrypted bytes are loaded as the key. -/
def ECCISAAC.LoadPrivateKey (fs : FileState) : Except STATUS (List Nat) :=
  match fs with
  | FileState.absent => Except.error STATUS.fileNotFound
  | FileState.undecryptable => Except.error STATUS.decryptionError
  | FileState.readable bytes => Except.ok bytes

/-- Embedding of ECCISAAC::LoadPublicKey (eccisaac.cc lines 520-550),
structurally identical to LoadPrivateKey. -/
def ECCISAAC.LoadPublicKey (fs : FileState) : Except STATUS (List Nat) :=
  match fs with
  | FileState.absent => Except.error STATUS.fileNotFound
  | FileState.undecryptable => Except.error STATUS.decryptionError
  | FileState.readable bytes => Except.ok bytes

/-- One uppercase hex digit, as produced by the Crypto++ HexEncoder. -/
def hexDigit (n : Nat) : Nat :=
  if n < 10 then 48 + n else 55 + n

/-- Hex encoding of a byte sequence (Crypto++ HexEncoder, two uppercase
digits per byte, high nibble first). -/
def hexEncode (bytes : List Nat) : List Nat :=
  bytes.flatMap (fun b => [hexDigit (b % 256 / 16), hexDigit (b % 16)])

/-- Embedding of ECCISAAC::loadKeys (eccisaac.cc lines 569-628): the
private key file is loaded first and any failure status is returned at
once; only then is the public key file loaded, again propagating failure;
on success both keys are serialized back and hex encoded (public first in
the result, matching encodedPub/encodedPriv). -/
def ECCISAAC.loadKeys (privFile pubFile : FileState) :
    STATUS × Option (List Nat × List Nat) :=
  match ECCISAAC.LoadPrivateKey privFile with
  | Except.error rc => (rc, none)
  | Except.ok privBytes =>
    match ECCISAAC.LoadPublicKey pubFile with
    | Except.error rc => (rc, none)
    | Except.ok pubBytes =>
      (STATUS.success, some (hexEncode pubBytes, hexEncode privBytes))

/-! ## eccisaac.cc : key generation -/

/-- The two key files written by generateKeys. -/
inductive KeyFile where
  | privKey : KeyFile
  | pubKey : KeyFile
deriving DecidableEq, Repr

/-- Environment of one ECCISAAC::generateKeys run: the entropy-gathering
attempts of the local IsaacRandomPool, the outcomes of the two
ThrowIfInvalid curve validations (eccisaac.cc lines 695-696), and whether
either SavePrivateKey/SavePublicKey call throws. -/
structure GenEnv where
  attempt : Nat → Except String Bool
  privValid : Bool
  pubValid : Bool
  savePrivThrows : Bool
  savePubThrows : Bool

/-- Embedding of ECCISAAC::generateKeys (eccisaac.cc lines 646-717).
Returns the success flag together with the list of key files written to
disk, in write order. The entropy loop runs first (lines 664-683) and any
failure returns false before anything is persisted. Inside the try block
the private and public keys are validated against the curve before either
save; a validation throw is caught at line 699 and returns false with
nothing written. A save that throws may leave its own file behind (the
external FileCryptopp already wrote it), which the model keeps
conservatively. -/
def ECCISAAC.generateKeys (env : GenEnv) : Bool × List KeyFile :=
  match RNG.initializeEntropy env.attempt with
  | InitOutcome.hwError _ => (false, [])
  | InitOutcome.entropyError => (false, [])
  | InitOutcome.ok =>
    if env.privValid = false then (false, [])
    else if env.pubValid = false then (false, [])
    else if env.savePrivThrows then (false, [KeyFile.privKey])
    else if env.savePubThrows then (false, [KeyFile.privKey, KeyFile.pubKey])
    else (true, [KeyFile.privKey, KeyFile.pubKey])

/-! ## Supporting lemmas -/

theorem uInt64toBytes_length (ws : List Nat) :
    (uInt64toBytes ws).length = 8 * ws.length := by
  induction ws with
  | nil => rfl
  | cons w ws ih =>
    simp only [uInt64toBytes, List.flatMap_cons] at *
    simp [ih, Nat.mul_succ, Nat.mul_add, Nat.add_comm]

theorem numRand_le (len : Nat) : len ≤ 8 * AESXOR256.numRand len := by
  unfold AESXOR256.numRand
  split <;> omega

theorem getRandom_fst_length (st : AESXOR256) (len : Nat) :
    (st.getRandom len).1.length = 8 * AESXOR256.numRand len := by
  simp [AESXOR256.getRandom, uInt64toBytes_length]

theorem zipWith_xor_cancel (m p : List Nat) (h : m.length ≤ p.length) :
    List.zipWith Nat.xor (List.zipWith Nat.xor m p) p = m := by
  induction m generalizing p with
  | nil => simp
  | cons a m ih =>
    cases p with
    | nil => simp at h
    | cons b p =>
      simp only [List.zipWith_cons_cons]
      rw [show Nat.xor (Nat.xor a b) b = a from Nat.xor_cancel_right b a,
        ih p (by simpa using h)]

theorem foldl_wrap_eq_mod (l : List Nat) :
    ∀ a : Nat,
      l.foldl (fun acc b => (acc * 256 + b % 256) % 2 ^ 64) (a % 2 ^ 64) =
        (l.foldl (fun acc b => acc * 256 + b % 256) a) % 2 ^ 64 := by
  induction l with
  | nil => intro a; rfl
  | cons b l ih =>
    intro a
    simp only [List.foldl_cons]
    rw [show (a % 2 ^ 64 * 256 + b % 256) % 2 ^ 64 =
          (a * 256 + b % 256) % 2 ^ 64 by
        conv_lhs => rw [← Nat.mod_add_mod, Nat.mod_mul_mod, Nat.mod_add_mod]]
    exact ih (a * 256 + b % 256)

theorem bytesToUInt64_eq_beVal_mod (l : List Nat) :
    bytesToUInt64 l = beVal l % 2 ^ 64 := by
  have h := foldl_wrap_eq_mod l 0
  simpa [bytesToUInt64, beVal] using h

theorem beVal_foldl_shift (s : List Nat) :
    ∀ a : Nat,
      s.foldl (fun acc b => acc * 256 + b % 256) a =
        a * 256 ^ s.length + beVal s := by
  induction s with
  | nil => intro a; simp [beVal]
  | cons b s ih =>
    intro a
    simp only [List.foldl_cons, List.length_cons]
    rw [ih (a * 256 + b % 256), show beVal (b :: s) = (b % 256) * 256 ^ s.length
        + beVal s by simpa [beVal, List.foldl_cons] using ih (b % 256)]
    ring

theorem beVal_append (p s : List Nat) :
    beVal (p ++ s) = beVal p * 256 ^ s.length + beVal s := by
  unfold beVal
  rw [List.foldl_append]
  exact beVal_foldl_shift s _

theorem bytesToUInt64_drop_eight (l : List Nat) (h : 8 ≤ l.length) :
    bytesToUInt64 l = beVal (l.drop (l.length - 8)) % 2 ^ 64 := by
  have hsplit : l.take (l.length - 8) ++ l.drop (l.length - 8) = l :=
    List.take_append_drop _ l
  have hlen : (l.drop (l.length - 8)).length = 8 := by
    rw [List.length_drop]; omega
  calc bytesToUInt64 l
      = beVal l % 2 ^ 64 := bytesToUInt64_eq_beVal_mod l
    _ = beVal (l.take (l.length - 8) ++ l.drop (l.length - 8)) % 2 ^ 64 := by
        rw [hsplit]
    _ = (beVal (l.take (l.length - 8)) * 256 ^ 8
          + beVal (l.drop (l.length - 8))) % 2 ^ 64 := by
        rw [beVal_append, hlen]
    _ = (beVal (l.take (l.length - 8)) * 2 ^ 64
          + beVal (l.drop (l.length - 8))) % 2 ^ 64 := by norm_num
    _ = beVal (l.drop (l.length - 8)) % 2 ^ 64 := by
        rw [Nat.mul_comm, Nat.mul_add_mod]

theorem entropyLoop_success (attempt : Nat → Except String Bool) (k : Nat)
    (hk : k < 6) (hAk : attempt k = Except.ok true) :
    ∀ d m, k = m + d →
      (∀ j, m ≤ j → j < k → attempt j = Except.ok false) →
      entropyLoop attempt m = Except.ok k ∧
      entropyTrace attempt m = List.range' m (k + 1 - m) := by
  intro d
  induction d with
  | zero =>
    intro m hm _
    have hmk : m = k := by omega
    subst hmk
    rw [entropyLoop, entropyTrace, show 6 - m = (6 - m - 1) + 1 by omega,
      show m + 1 - m = 1 by omega, List.range'_one]
    simp [entropyLoopAux, entropyTraceAux, hAk]
  | succ d ih =>
    intro m hm hprev
    have hm6 : m < 6 := by omega
    have hAm : attempt m = Except.ok false := hprev m le_rfl (by omega)
    obtain ⟨h1, h2⟩ := ih (m + 1) (by omega)
      (fun j hj hj2 => hprev j (by omega) hj2)
    constructor
    · rw [entropyLoop, show 6 - m = (6 - (m + 1)) + 1 by omega]
      simp only [entropyLoopAux, hAm]
      exact h1
    · rw [entropyTrace, show 6 - m = (6 - (m + 1)) + 1 by omega]
      simp only [entropyTraceAux, hAm]
      rw [show entropyTraceAux attempt (m + 1) (6 - (m + 1)) =
            entropyTrace attempt (m + 1) from rfl, h2,
        show k + 1 - m = (k - m) + 1 by omega, List.range'_succ,
        show k + 1 - (m + 1) = k - m by omega]

theorem entropyLoop_exhaust (attempt : Nat → Except String Bool)
    (hall : ∀ k, k < 6 → attempt k = Except.ok false) :
    ∀ d m, 6 = m + d →
      entropyLoop attempt m = Except.ok 6 ∧
      entropyTrace attempt m = List.range' m d := by
  intro d
  induction d with
  | zero =>
    intro m hm
    have hm6 : m = 6 := by omega
    subst hm6
    rw [entropyLoop, entropyTrace]
    simp [entropyLoopAux, entropyTraceAux]
  | succ d ih =>
    intro m hm
    have hm6 : m < 6 := by omega
    have hAm : attempt m = Except.ok false := hall m hm6
    obtain ⟨h1, h2⟩ := ih (m + 1) (by omega)
    constructor
    · rw [entropyLoop, show 6 - m = (6 - (m + 1)) + 1 by omega]
      simp only [entropyLoopAux, hAm]
      exact h1
    · rw [entropyTrace, show 6 - m = (6 - (m + 1)) + 1 by omega]
      simp only [entropyTraceAux, hAm]
      rw [show entropyTraceAux attempt (m + 1) (6 - (m + 1)) =
            entropyTrace attempt (m + 1) from rfl, h2, List.range'_succ]

theorem entropyLoop_error (attempt : Nat → Except String Bool) (k : Nat)
    (e : String) (hk : k < 6) (hAk : attempt k = Except.error e) :
    ∀ d m, k = m + d →
      (∀ j, m ≤ j → j < k → attempt j = Except.ok false) →
      entropyLoop attempt m = Except.error e ∧
      entropyTrace attempt m = List.range' m (k + 1 - m) := by
  intro d
  induction d with
  | zero =>
    intro m hm _
    have hmk : m = k := by omega
    subst hmk
    rw [entropyLoop, entropyTrace, show 6 - m = (6 - m - 1) + 1 by omega,
      show m + 1 - m = 1 by omega, List.range'_one]
    simp [entropyLoopAux, entropyTraceAux, hAk]
  | succ d ih =>
    intro m hm hprev
    have hm6 : m < 6 := by omega
    have hAm : attempt m = Except.ok false := hprev m le_rfl (by omega)
    obtain ⟨h1, h2⟩ := ih (m + 1) (by omega)
      (fun j hj hj2 => hprev j (by omega) hj2)
    constructor
    · rw [entropyLoop, show 6 - m = (6 - (m + 1)) + 1 by omega]
      simp only [entropyLoopAux, hAm]
      exact h1
    · rw [entropyTrace, show 6 - m = (6 - (m + 1)) + 1 by omega]
      simp only [entropyTraceAux, hAm]
      rw [show entropyTraceAux attempt (m + 1) (6 - (m + 1)) =
            entropyTrace attempt (m + 1) from rfl, h2,
        show k + 1 - m = (k - m) + 1 by omega, List.range'_succ,
        show k + 1 - (m + 1) = k - m by omega]

/-! ## Claim theorems -/

/-- Claim C2 counterexample: the claim states that for a secret buffer of
33 bytes the protection key used is exactly the first 32 bytes. The code
copies the whole buffer, so for the 33-byte buffer 0,1,...,32 the key kept
is the full buffer, which differs from its first 32 bytes. -/
theorem c2_counterexample :
    normalizeKey (fun _ => List.replicate 32 0) (List.range 33) ≠
      (List.range 33).take 32 := by
  decide

/-- Claim C2 (amended): for buffers of length at least 32 the protection
key used by isInitialized, initialize and the ECCISAAC constructor is the
entire buffer unchanged (hence the first 32 bytes exactly when the buffer
has exactly 32 bytes); for shorter buffers it is the 32-byte hash of the
buffer. -/
theorem c2_protection_key (sha3 : List Nat → List Nat) (buffer : List Nat)
    (hsha : ∀ x, (sha3 x).length = 32) :
    (32 ≤ buffer.length → normalizeKey sha3 buffer = buffer) ∧
    (buffer.length < 32 →
      normalizeKey sha3 buffer = sha3 buffer ∧
      (normalizeKey sha3 buffer).length = 32) := by
  constructor
  · intro h
    simp [normalizeKey, Nat.not_lt.mpr h]
  · intro h
    simp [normalizeKey, h, hsha]

/-- Witness for c2_protection_key at a 33-byte buffer and at a 3-byte
buffer. -/
theorem c2_witness :
    normalizeKey (fun _ => List.replicate 32 0) (List.range 33) =
      List.range 33 ∧
    normalizeKey (fun _ => List.replicate 32 0) [1, 2, 3] =
      List.replicate 32 0 :=
  ⟨(c2_protection_key (fun _ => List.replicate 32 0) (List.range 33)
      (fun _ => by simp)).1 (by decide),
   ((c2_protection_key (fun _ => List.replicate 32 0) [1, 2, 3]
      (fun _ => by simp)).2 (by decide)).1⟩

/-- Claim C3 (code bug): evaluated at requested length 1, the byte-stream
generation of AESXOR256::getRandom serializes one full 64-bit word and
writes all 8 of its bytes through the output pointer, although the output
buffer prepared by xorRandomData holds exactly 1 byte: the excess bytes of
the last word are written out of bounds, not discarded. -/
theorem c3_getRandom_overflow :
    (AESXOR256.getRandom ⟨fun _ => 0, 0⟩ 1).1.length = 8 ∧
    ¬(AESXOR256.getRandom ⟨fun _ => 0, 0⟩ 1).1.length ≤ 1 := by
  constructor <;> decide

/-- Claim C9: for every input byte sequence (including the empty one),
SEIFSHA3::hash produces a digest buffer of exactly 32 bytes, and it is
deterministic: equal inputs give equal outputs. The embedding is a total
pure function of the input, matching the absence of error paths and side
effects in the code. -/
theorem c9_hash_32_deterministic (sha3 : List Nat → List Nat)
    (input : List Nat) :
    (SEIFSHA3.hash sha3 input).length = 32 ∧
    ∀ input2, input = input2 →
      SEIFSHA3.hash sha3 input = SEIFSHA3.hash sha3 input2 := by
  constructor
  · simp [SEIFSHA3.hash]
  · intro input2 h
    rw [h]

/-- Witness for c9_hash_32_deterministic on the empty input. -/
theorem c9_witness :
    (SEIFSHA3.hash (fun _ => List.replicate 32 1) []).length = 32 ∧
    SEIFSHA3.hash (fun _ => List.replicate 32 1) [] =
      SEIFSHA3.hash (fun _ => List.replicate 32 1) [] :=
  ⟨(c9_hash_32_deterministic (fun _ => List.replicate 32 1) []).1,
   (c9_hash_32_deterministic (fun _ => List.replicate 32 1) []).2 [] rfl⟩

/-- Claim C6 counterexample: when the private key file is present but
undecryptable and the public key file is absent, loadKeys returns
DECRYPTION_ERROR, although the claim requires FileNotFound whenever either
of the two files is absent. -/
theorem c6_counterexample :
    (ECCISAAC.loadKeys FileState.undecryptable FileState.absent).1 =
      STATUS.decryptionError ∧
    STATUS.decryptionError ≠ STATUS.fileNotFound := by
  constructor <;> decide

/-- Claim C6 (amended): loadKeys examines the private key file first and
returns FileNotFound if it is absent and DecryptionError if it is present
but undecryptable, without consulting the public key file; only when the
private key loads does it examine the public key file the same way; it
returns Success together with both hex-encoded keys exactly when both
files load. -/
theorem c6_loadKeys_status (privFile pubFile : FileState) :
    (privFile = FileState.absent →
      ECCISAAC.loadKeys privFile pubFile = (STATUS.fileNotFound, none)) ∧
    (privFile = FileState.undecryptable →
      ECCISAAC.loadKeys privFile pubFile = (STATUS.decryptionError, none)) ∧
    (∀ p, privFile = FileState.readable p →
      (pubFile = FileState.absent →
        ECCISAAC.loadKeys privFile pubFile = (STATUS.fileNotFound, none)) ∧
      (pubFile = FileState.undecryptable →
        ECCISAAC.loadKeys privFile pubFile = (STATUS.decryptionError, none)) ∧
      (∀ q, pubFile = FileState.readable q →
        ECCISAAC.loadKeys privFile pubFile =
          (STATUS.success, some (hexEncode q, hexEncode p)))) :=
  ⟨fun h => by subst h; rfl,
   fun h => by subst h; rfl,
   fun p hp =>
    ⟨fun h => by subst hp; subst h; rfl,
     fun h => by subst hp; subst h; rfl,
     fun q hq => by subst hp; subst hq; rfl⟩⟩

/-- Witness for c6_loadKeys_status with both files readable. -/
theorem c6_witness :
    ECCISAAC.loadKeys (FileState.readable [1]) (FileState.readable [2]) =
      (STATUS.success, some (hexEncode [2], hexEncode [1])) :=
  ((c6_loadKeys_status (FileState.readable [1])
    (FileState.readable [2])).2.2 [1] rfl).2.2 [2] rfl

/-- Claim C7: if generateKeys fails because entropy gathering fails (a
hardware exception or all six effort levels exhausted, so the embedded
initialization does not succeed) or because either curve validation
fails, it returns false and writes neither key file to disk. -/
theorem c7_no_partial_persistence (env : GenEnv)
    (h : RNG.initializeEntropy env.attempt ≠ InitOutcome.ok ∨
      env.privValid = false ∨ env.pubValid = false) :
    ECCISAAC.generateKeys env = (false, []) := by
  unfold ECCISAAC.generateKeys
  cases hinit : RNG.initializeEntropy env.attempt with
  | hwError e => rfl
  | entropyError => rfl
  | ok =>
    rcases h with h | h | h
    · exact absurd hinit h
    · simp [h]
    · cases hb : env.privValid with
      | false => simp [hb]
      | true => simp [hb, h]

/-- Witness for c7_no_partial_persistence: every attempt reports too
little entropy, so nothing is persisted. -/
theorem c7_witness :
    ECCISAAC.generateKeys
      { attempt := fun _ => Except.ok false, privValid := true,
        pubValid := true, savePrivThrows := false,
        savePubThrows := false } = (false, []) :=
  c7_no_partial_persistence _ (Or.inl (by decide))

/-- Claim C4: the entropy-gathering phase of initialize consults the
attempt at effort multipliers 0, 1, 2, ... in order; if the first
succeeding multiplier is k < 6 it stops there (exactly the multipliers
0..k are attempted, so at most 6 in total) and initialization succeeds;
if all 6 attempts (multipliers 0..5) fail, the operation fails with the
entropy error instead of succeeding. -/
theorem c4_entropy_retry (attempt : Nat → Except String Bool) :
    (∀ k, k < 6 → attempt k = Except.ok true →
      (∀ j, j < k → attempt j = Except.ok false) →
      RNG.initializeEntropy attempt = InitOutcome.ok ∧
      entropyTrace attempt 0 = List.range (k + 1)) ∧
    ((∀ k, k < 6 → attempt k = Except.ok false) →
      RNG.initializeEntropy attempt = InitOutcome.entropyError ∧
      entropyTrace attempt 0 = List.range 6) := by
  constructor
  · intro k hk hAk hprev
    obtain ⟨h1, h2⟩ := entropyLoop_success attempt k hk hAk k 0 (by omega)
      (fun j _ hj2 => hprev j hj2)
    refine ⟨?_, ?_⟩
    · rw [RNG.initializeEntropy, h1]
      show (if k = 6 then InitOutcome.entropyError else InitOutcome.ok) =
        InitOutcome.ok
      rw [if_neg (by omega)]
    · rw [h2, Nat.sub_zero, List.range_eq_range']
  · intro hall
    obtain ⟨h1, h2⟩ := entropyLoop_exhaust attempt hall 6 0 (by omega)
    refine ⟨?_, ?_⟩
    · rw [RNG.initializeEntropy, h1]
      rfl
    · rw [h2, List.range_eq_range']

/-- Witness for c4_entropy_retry: the attempt first succeeds at
multiplier 2, and a second scenario where every attempt fails. -/
theorem c4_witness :
    (RNG.initializeEntropy (fun j => Except.ok (j == 2)) = InitOutcome.ok ∧
      entropyTrace (fun j => Except.ok (j == 2)) 0 = List.range 3) ∧
    (RNG.initializeEntropy (fun _ => Except.ok false) = InitOutcome.entropyError ∧
      entropyTrace (fun _ => Except.ok false) 0 = List.range 6) :=
  ⟨(c4_entropy_retry (fun j => Except.ok (j == 2))).1 2 (by decide)
      rfl (fun j hj => by interval_cases j <;> rfl),
   (c4_entropy_retry (fun _ => Except.ok false)).2 (fun _ _ => rfl)⟩

/-- Claim C8: if the attempts at multipliers below k report insufficient
entropy and the attempt at multiplier k < 6 raises a hardware exception,
the whole initialization aborts immediately with that error surfaced to
the caller, and only the multipliers 0..k are ever attempted: no retry at
a higher effort multiplier happens after the exception. -/
theorem c8_exception_aborts (attempt : Nat → Except String Bool)
    (k : Nat) (e : String) (hk : k < 6)
    (hprev : ∀ j, j < k → attempt j = Except.ok false)
    (hAk : attempt k = Except.error e) :
    RNG.initializeEntropy attempt = InitOutcome.hwError e ∧
    entropyTrace attempt 0 = List.range (k + 1) := by
  obtain ⟨h1, h2⟩ := entropyLoop_error attempt k e hk hAk k 0 (by omega)
    (fun j _ hj2 => hprev j hj2)
  refine ⟨?_, ?_⟩
  · rw [RNG.initializeEntropy, h1]
  · rw [h2, Nat.sub_zero, List.range_eq_range']

/-- Witness for c8_exception_aborts: the attempt at multiplier 1 throws
after the attempt at multiplier 0 failed; only multipliers 0 and 1 are
consulted. -/
theorem c8_witness :
    RNG.initializeEntropy
        (fun j => if j = 1 then Except.error "hw" else Except.ok false) =
      InitOutcome.hwError "hw" ∧
    entropyTrace
        (fun j => if j = 1 then Except.error "hw" else Except.ok false) 0 =
      List.range 2 :=
  c8_exception_aborts _ 1 "hw" (by decide)
    (fun j hj => by interval_cases j; rfl) rfl

/-- Claim C10: the 64-bit pcg seed of an AESXOR256 instance is the
big-endian accumulation of the seed buffer modulo 2 ^ 64, so it depends
only on the final 8 bytes of the buffer: two seed buffers with equal final
8 bytes yield equal seeds, identical constructed instances and hence
identical whitening streams and encrypt/decrypt behaviour. -/
theorem c10_seed_last_eight_bytes (pcg : Nat → Nat → Nat)
    (l1 l2 : List Nat) (h1 : 8 ≤ l1.length) (h2 : 8 ≤ l2.length)
    (hs : l1.drop (l1.length - 8) = l2.drop (l2.length - 8)) :
    bytesToUInt64 l1 = bytesToUInt64 l2 ∧
    AESXOR256.New pcg l1 = AESXOR256.New pcg l2 ∧
    ∀ n, ((AESXOR256.New pcg l1).getRandom n).1 =
      ((AESXOR256.New pcg l2).getRandom n).1 := by
  have hseed : bytesToUInt64 l1 = bytesToUInt64 l2 := by
    rw [bytesToUInt64_drop_eight l1 h1, bytesToUInt64_drop_eight l2 h2, hs]
  have hnew : AESXOR256.New pcg l1 = AESXOR256.New pcg l2 := by
    rw [AESXOR256.New, AESXOR256.New, hseed]
  exact ⟨hseed, hnew, fun n => by rw [hnew]⟩

/-- Witness for c10_seed_last_eight_bytes: the buffers 0,...,8 and
9,1,2,...,8 of length 9 share their final 8 bytes. -/
theorem c10_witness :
    bytesToUInt64 (List.range 9) =
      bytesToUInt64 [9, 1, 2, 3, 4, 5, 6, 7, 8] :=
  (c10_seed_last_eight_bytes (fun s _ => s) (List.range 9)
    [9, 1, 2, 3, 4, 5, 6, 7, 8] (by decide) (by decide) (by decide)).1

/-- Claim C1: for every 32-byte key and every message, decrypting the
encryption of the message returns the message, provided the AES-GCM
primitive round-trips and the whitening stream drawn from the generator at
decrypt time is bit-identical to the one drawn at encrypt time (the
whitening-stream synchronization invariant). -/
theorem c1_aesxor_roundtrip
    (gcmEnc gcmDec : List Nat → List Nat → Except String (List Nat))
    (st1 st2 st1x : AESXOR256) (key m c : List Nat)
    (hgcm : ∀ x y, gcmEnc key x = Except.ok y → gcmDec key y = Except.ok x)
    (hsync : (st2.getRandom m.length).1 = (st1.getRandom m.length).1)
    (henc : AESXOR256.encrypt gcmEnc st1 key m = Except.ok (c, st1x)) :
    ∃ st2x, AESXOR256.decrypt gcmDec st2 key c = Except.ok (m, st2x) := by
  by_cases hk : key.length = 32
  case neg =>
    rw [AESXOR256.encrypt, if_pos hk] at henc
    simp at henc
  case pos =>
    rw [AESXOR256.encrypt, if_neg (not_not_intro hk)] at henc
    cases hgE : gcmEnc key (st1.xorRandomData m).1 with
    | error e =>
      rw [hgE] at henc
      simp at henc
    | ok cd =>
      rw [hgE] at henc
      simp only [Except.ok.injEq, Prod.mk.injEq] at henc
      obtain ⟨hcd, _⟩ := henc
      have hdec : gcmDec key c = Except.ok (st1.xorRandomData m).1 :=
        hgcm _ _ (hcd ▸ hgE)
      have hp1 : m.length ≤ (st1.getRandom m.length).1.length := by
        rw [getRandom_fst_length]
        exact numRand_le m.length
      have hwlen : ((st1.xorRandomData m).1).length = m.length := by
        show (List.zipWith Nat.xor m (st1.getRandom m.length).1).length
          = m.length
        rw [List.length_zipWith]
        omega
      have hfix : (st2.xorRandomData (st1.xorRandomData m).1).1 = m := by
        show List.zipWith Nat.xor (st1.xorRandomData m).1
          (st2.getRandom ((st1.xorRandomData m).1).length).1 = m
        rw [hwlen, hsync]
        exact zipWith_xor_cancel m _ hp1
      refine ⟨(st2.xorRandomData (st1.xorRandomData m).1).2, ?_⟩
      rw [AESXOR256.decrypt, if_neg (not_not_intro hk), hdec]
      show Except.ok ((st2.xorRandomData (st1.xorRandomData m).1).1,
          (st2.xorRandomData (st1.xorRandomData m).1).2) =
        Except.ok (m, (st2.xorRandomData (st1.xorRandomData m).1).2)
      rw [hfix]

/-- Witness for c1_aesxor_roundtrip: generator stream constantly 1, key of
32 zero bytes, message 3,5; the whitened cipher is 2,5 under an identity
block cipher, and decryption with the same stream position recovers 3,5. -/
theorem c1_witness :
    ∃ st2x, AESXOR256.decrypt (fun _ x => Except.ok x) ⟨fun _ => 1, 0⟩
      (List.replicate 32 0) [2, 5] = Except.ok ([3, 5], st2x) :=
  c1_aesxor_roundtrip (fun _ x => Except.ok x) (fun _ x => Except.ok x)
    ⟨fun _ => 1, 0⟩ ⟨fun _ => 1, 0⟩ ⟨fun _ => 1, 1⟩ (List.replicate 32 0)
    [3, 5] [2, 5]
    (fun x y h => by injection h with h2; rw [h2]) rfl rfl

/-- Claim C5: both encrypt and decrypt report a structured error when the
key buffer is not exactly 32 bytes, and any fault of the authenticated
encryption primitive (including a tag mismatch during decryption) is
reported as a structured error; in every such case decrypt produces an
error value carrying no plaintext at all. -/
theorem c5_structured_errors
    (gcmEnc gcmDec : List Nat → List Nat → Except String (List Nat))
    (st : AESXOR256) (key buf : List Nat) :
    (key.length ≠ 32 →
      (∃ e, AESXOR256.encrypt gcmEnc st key buf = Except.error e) ∧
      (∃ e, AESXOR256.decrypt gcmDec st key buf = Except.error e)) ∧
    ((∃ e, gcmDec key buf = Except.error e) →
      ∃ e2, AESXOR256.decrypt gcmDec st key buf = Except.error e2) ∧
    ((∃ e, gcmEnc key (st.xorRandomData buf).1 = Except.error e) →
      ∃ e2, AESXOR256.encrypt gcmEnc st key buf = Except.error e2) := by
  refine ⟨?_, ?_, ?_⟩
  · intro hk
    exact ⟨⟨_, by rw [AESXOR256.encrypt, if_pos hk]⟩,
      ⟨_, by rw [AESXOR256.decrypt, if_pos hk]⟩⟩
  · rintro ⟨e, he⟩
    by_cases hk : key.length = 32
    · exact ⟨e, by rw [AESXOR256.decrypt, if_neg (not_not_intro hk), he]⟩
    · exact ⟨_, by rw [AESXOR256.decrypt, if_pos hk]⟩
  · rintro ⟨e, he⟩
    by_cases hk : key.length = 32
    · exact ⟨e, by rw [AESXOR256.encrypt, if_neg (not_not_intro hk), he]⟩
    · exact ⟨_, by rw [AESXOR256.encrypt, if_pos hk]⟩

/-- Witness for c5_structured_errors: a decryption whose tag check fails
yields an error, and an encryption under a 1-byte key yields an error. -/
theorem c5_witness :
    (∃ e2, AESXOR256.decrypt (fun _ _ => Except.error "tag mismatch")
      ⟨fun _ => 0, 0⟩ (List.replicate 32 0) [1, 2] = Except.error e2) ∧
    (∃ e, AESXOR256.encrypt (fun _ x => Except.ok x) ⟨fun _ => 0, 0⟩
      [7] [1, 2] = Except.error e) :=
  ⟨(c5_structured_errors (fun _ x => Except.ok x)
      (fun _ _ => Except.error "tag mismatch") ⟨fun _ => 0, 0⟩
      (List.replicate 32 0) [1, 2]).2.1 ⟨"tag mismatch", rfl⟩,
   ((c5_structured_errors (fun _ x => Except.ok x)
      (fun _ _ => Except.error "t") ⟨fun _ => 0, 0⟩ [7] [1, 2]).1
      (by decide)).1⟩
